import Mathlib

/-!
Verification of the WWMP MIDI player against its specification.

The repository ships the Tauri frontend (src/main.js) together with a
specification of the Rust backend (MIDI engine, note mapper, timeline
builder, playback scheduler).  Pure frontend helpers are embedded directly
from src/main.js; backend components whose Rust sources are not part of the
repository snapshot are modelled from the specification, as marked on each
definition.

Conventions: JavaScript numbers are modelled as rationals where fractional
values can occur and as naturals/integers where the code only ever holds
integers; Math.floor is the integer floor, and the JavaScript remainder
operator on integers is Int.tmod (truncated remainder).
-/

namespace WWMP

/-! ## Frontend helpers, embedded from src/main.js -/

/-- Embeds the behaviour of the JavaScript padStart(2, char 0) call used in
formatDuration: pad the string on the left with zeros up to length 2. -/
def padStart2 (s : String) : String :=
  if s.length < 2 then String.mk (List.replicate (2 - s.length) '0') ++ s else s

/-- Embedded from src/main.js lines 141-146:
seconds = Math.floor(ms / 1000); minutes = Math.floor(seconds / 60);
secs = seconds % 60; returns minutes, a colon, and secs padded to 2 digits.
The JavaScript remainder on integers is truncated remainder (Int.tmod). -/
def formatDuration (ms : ℚ) : String :=
  let seconds : ℤ := ⌊ms / 1000⌋
  let minutes : ℤ := ⌊(seconds : ℚ) / 60⌋
  let secs : ℤ := seconds.tmod 60
  toString minutes ++ ":" ++ padStart2 (toString secs)

/-- The pitch-class name table from src/main.js line 149. -/
def noteNames : List String :=
  ["C", "C#", "D", "D#", "E", "F"] ++ ["F#", "G", "G#", "A", "A#", "B"]

/-- Embedded from src/main.js lines 148-153:
octave = Math.floor(note / 12) - 1; name = names[note % 12];
returns name concatenated with octave.  The array index is modelled with
getD, which agrees with the JavaScript index whenever it is in bounds. -/
def midiNoteToName (note : ℕ) : String :=
  let octave : ℤ := ((note / 12 : ℕ) : ℤ) - 1
  let name := noteNames.getD (note % 12) ""
  name ++ toString octave

end WWMP

namespace WWMP

/-- Floor of an already-floored nonnegative rational divided by a natural
number agrees with flooring the full quotient. -/
lemma floor_floor_div_nat (x : ℚ) (hx : 0 ≤ x) (n : ℕ) :
    ⌊((⌊x⌋ : ℚ)) / (n : ℚ)⌋ = ⌊x / (n : ℚ)⌋ := by
  have hR : ⌊x / (n : ℚ)⌋ = ((⌊x⌋₊ / n : ℕ) : ℤ) := by
    rw [← Nat.floor_div_nat x n, Int.natCast_floor_eq_floor (by positivity)]
  have hx' : ((⌊x⌋ : ℤ) : ℚ) = ((⌊x⌋₊ : ℕ) : ℚ) := by
    rw [← Int.natCast_floor_eq_floor hx]
    push_cast
    ring
  rw [hR, hx', Rat.floor_natCast_div_natCast]
  exact (Int.ofNat_ediv _ _).symm

/-- C9: for every non-negative millisecond value, formatDuration returns the
minutes part, floor of ms divided by 60000, then a colon, then the seconds
part, floor of ms divided by 1000 reduced mod 60 and zero-padded to two
digits; the seconds value always lies between 0 and 59 inclusive. -/
theorem formatDuration_spec (ms : ℚ) (h : 0 ≤ ms) :
    formatDuration ms =
      toString ⌊ms / 60000⌋ ++ ":" ++ padStart2 (toString (⌊ms / 1000⌋ % 60)) ∧
    0 ≤ ⌊ms / 1000⌋ % 60 ∧ ⌊ms / 1000⌋ % 60 ≤ 59 := by
  have hsec : (0:ℚ) ≤ ms / 1000 := by positivity
  have hfl : (0:ℤ) ≤ ⌊ms / 1000⌋ := Int.floor_nonneg.2 hsec
  refine ⟨?_, Int.emod_nonneg _ (by norm_num), ?_⟩
  · have hmin : ⌊((⌊ms / 1000⌋ : ℤ) : ℚ) / 60⌋ = ⌊ms / 60000⌋ := by
      have h60 : ((60 : ℕ) : ℚ) = (60 : ℚ) := by norm_num
      have := floor_floor_div_nat (ms / 1000) hsec 60
      rw [h60] at this
      rw [this, div_div]
      norm_num
    have hmod : ⌊ms / 1000⌋.tmod 60 = ⌊ms / 1000⌋ % 60 :=
      Int.tmod_eq_emod hfl (by norm_num)
    simp only [formatDuration, hmin, hmod]
  · have := Int.emod_lt_of_pos ⌊ms / 1000⌋ (show (0:ℤ) < 60 by norm_num)
    omega

/-- Witness for C9 at the concrete input 61000 ms. -/
theorem formatDuration_spec_witness :
    (0:ℚ) ≤ 61000 ∧
    (formatDuration 61000 =
        toString ⌊(61000:ℚ) / 60000⌋ ++ ":" ++
          padStart2 (toString (⌊(61000:ℚ) / 1000⌋ % 60)) ∧
      0 ≤ ⌊(61000:ℚ) / 1000⌋ % 60 ∧ ⌊(61000:ℚ) / 1000⌋ % 60 ≤ 59) :=
  ⟨by decide, formatDuration_spec 61000 (by decide)⟩

/-- C10: for every MIDI note number up to 127, the pitch-class table index
note mod 12 is in bounds, midiNoteToName returns the table entry at that
index followed by the octave number, floor of note divided by 12 minus one,
and in particular note 60 is named C4. -/
theorem midiNoteToName_spec (note : ℕ) (h : note ≤ 127) :
    note % 12 < noteNames.length ∧
    (∀ hin : note % 12 < noteNames.length,
        midiNoteToName note =
          noteNames.get ⟨note % 12, hin⟩ ++ toString ((note : ℤ) / 12 - 1)) ∧
    midiNoteToName 60 = "C4" := by
  have hlen : noteNames.length = 12 := rfl
  have hlt : note % 12 < noteNames.length := by
    rw [hlen]; exact Nat.mod_lt note (by norm_num)
  refine ⟨hlt, fun hin => ?_, by decide⟩
  have hoct : ((note / 12 : ℕ) : ℤ) - 1 = (note : ℤ) / 12 - 1 := by
    rw [Int.ofNat_ediv]; norm_num
  simp only [midiNoteToName, hoct, List.getD_eq_getElem (noteNames) "" hin,
    List.get_eq_getElem]

/-- Witness for C10 at the concrete note 60. -/
theorem midiNoteToName_spec_witness :
    60 ≤ 127 ∧
    (60 % 12 < noteNames.length ∧
      (∀ hin : 60 % 12 < noteNames.length,
          midiNoteToName 60 =
            noteNames.get ⟨60 % 12, hin⟩ ++ toString ((60 : ℤ) / 12 - 1)) ∧
      midiNoteToName 60 = "C4") :=
  ⟨by decide, midiNoteToName_spec 60 (by decide)⟩

end WWMP

namespace WWMP

/-! ## Tempo Map (spec section 4.1) -/

/-- Modelled from the spec: a TempoEvent of the tempo map, spec section 3
(the Rust backend module midi.rs is not part of the repository snapshot).
Fields: tick position and tempo in microseconds per quarter note. -/
structure TempoEvent where
  tick : ℕ
  uspq : ℕ
  deriving DecidableEq, Repr

/-- Modelled from the spec: the piecewise-linear resolution of section 4.1,
walking the tick-sorted tempo events while accumulating each segment's start
time; for a tick t inside the segment starting at t0 with tempo q the result
is startMs + (t - t0) * q / (ppq * 1000). -/
def resolveFrom (ppq : ℕ) (startMs : ℚ) (t0 : ℕ) (q : ℕ) :
    List TempoEvent → ℕ → ℚ
  | [], t => startMs + ((t - t0 : ℕ) : ℚ) * q / (ppq * 1000)
  | e :: es, t =>
    if t < e.tick then startMs + ((t - t0 : ℕ) : ℚ) * q / (ppq * 1000)
    else
      resolveFrom ppq (startMs + ((e.tick - t0 : ℕ) : ℚ) * q / (ppq * 1000))
        e.tick e.uspq es t

/-- Modelled from the spec: a tempo map is the pulses-per-quarter-note value
together with the tick-ordered tempo events (spec section 3: first event
implicitly at tick 0 with default 500000 microseconds per quarter note). -/
structure TempoMap where
  ppq : ℕ
  events : List TempoEvent
  deriving DecidableEq, Repr

/-- Modelled from the spec: resolve(tick) -> absoluteMs, starting from the
implicit default tempo 500000 at tick 0. -/
def TempoMap.resolve (tm : TempoMap) (t : ℕ) : ℚ :=
  resolveFrom tm.ppq 0 0 500000 tm.events t

lemma resolveFrom_ge (ppq : ℕ) (startMs : ℚ) (t0 q : ℕ)
    (es : List TempoEvent) (t : ℕ) :
    startMs ≤ resolveFrom ppq startMs t0 q es t := by
  induction es generalizing startMs t0 q with
  | nil =>
    simp only [resolveFrom]
    have : (0:ℚ) ≤ ((t - t0 : ℕ) : ℚ) * q / (ppq * 1000) := by positivity
    linarith
  | cons e es ih =>
    simp only [resolveFrom]
    split
    · have : (0:ℚ) ≤ ((t - t0 : ℕ) : ℚ) * q / (ppq * 1000) := by positivity
      linarith
    · refine le_trans ?_ (ih _ _ _)
      have : (0:ℚ) ≤ ((e.tick - t0 : ℕ) : ℚ) * q / (ppq * 1000) := by positivity
      linarith

lemma resolveFrom_mono (ppq : ℕ) (startMs : ℚ) (t0 q : ℕ)
    (es : List TempoEvent) (t1 t2 : ℕ) (h : t1 ≤ t2) :
    resolveFrom ppq startMs t0 q es t1 ≤ resolveFrom ppq startMs t0 q es t2 := by
  induction es generalizing startMs t0 q with
  | nil =>
    simp only [resolveFrom]
    have hc : (0:ℚ) ≤ (q : ℚ) / ((ppq : ℚ) * 1000) := by positivity
    have hsub : ((t1 - t0 : ℕ) : ℚ) ≤ ((t2 - t0 : ℕ) : ℚ) := by
      exact_mod_cast Nat.sub_le_sub_right h t0
    rw [mul_div_assoc, mul_div_assoc]
    have := mul_le_mul_of_nonneg_right hsub hc
    push_cast at this ⊢
    linarith
  | cons e es ih =>
    simp only [resolveFrom]
    by_cases h2 : t2 < e.tick
    · have h1 : t1 < e.tick := lt_of_le_of_lt h h2
      rw [if_pos h1, if_pos h2]
      have hc : (0:ℚ) ≤ (q : ℚ) / ((ppq : ℚ) * 1000) := by positivity
      have hsub : ((t1 - t0 : ℕ) : ℚ) ≤ ((t2 - t0 : ℕ) : ℚ) := by
        exact_mod_cast Nat.sub_le_sub_right h t0
      rw [mul_div_assoc, mul_div_assoc]
      have := mul_le_mul_of_nonneg_right hsub hc
      push_cast at this ⊢
      linarith
    · rw [if_neg h2]
      by_cases h1 : t1 < e.tick
      · rw [if_pos h1]
        refine le_trans ?_ (resolveFrom_ge ppq _ e.tick e.uspq es t2)
        have hc : (0:ℚ) ≤ (q : ℚ) / ((ppq : ℚ) * 1000) := by positivity
        have hsub : ((t1 - t0 : ℕ) : ℚ) ≤ ((e.tick - t0 : ℕ) : ℚ) := by
          exact_mod_cast Nat.sub_le_sub_right (le_of_lt h1) t0
        rw [mul_div_assoc, mul_div_assoc]
        have := mul_le_mul_of_nonneg_right hsub hc
        push_cast at this ⊢
        linarith
      · rw [if_neg h1]
        exact ih _ _ _

/-- C3: for every valid tempo map, ppq positive and all tempos positive,
resolve is monotonically non-decreasing in tick; the definition resolveFrom
realises the piecewise-linear per-segment computation of spec section 4.1. -/
theorem TempoMap.resolve_mono (tm : TempoMap) (hppq : 0 < tm.ppq)
    (htempo : ∀ e ∈ tm.events, 0 < e.uspq) (t1 t2 : ℕ) (h : t1 ≤ t2) :
    tm.resolve t1 ≤ tm.resolve t2 :=
  resolveFrom_mono tm.ppq 0 0 500000 tm.events t1 t2 h

/-- Witness for C3: the spec scenario tempo map, one event at tick 0 with
500000 microseconds per quarter and ppq 480, at ticks 480 and 960. -/
theorem TempoMap.resolve_mono_witness :
    0 < (TempoMap.mk 480 [TempoEvent.mk 0 500000]).ppq ∧
    (∀ e ∈ (TempoMap.mk 480 [TempoEvent.mk 0 500000]).events, 0 < e.uspq) ∧
    (480:ℕ) ≤ 960 ∧
    (TempoMap.mk 480 [TempoEvent.mk 0 500000]).resolve 480 ≤
      (TempoMap.mk 480 [TempoEvent.mk 0 500000]).resolve 960 :=
  ⟨by decide, by decide, by decide,
    TempoMap.resolve_mono _ (by decide) (by decide) 480 960 (by decide)⟩

/-- Sanity scenario from spec section 8: with a single tempo event of 500000
microseconds per quarter at tick 0 and ppq 480, tick 480 resolves to 500 ms
and tick 960 to 1000 ms. -/
theorem resolve_scenario :
    (TempoMap.mk 480 [TempoEvent.mk 0 500000]).resolve 480 = 500 ∧
    (TempoMap.mk 480 [TempoEvent.mk 0 500000]).resolve 960 = 1000 := by
  constructor <;> norm_num [TempoMap.resolve, resolveFrom]

end WWMP

namespace WWMP

/-! ## Note Mapper (spec section 4.3) -/

/-- Modelled from the spec: octave bands of the 36-pitch instrument. -/
inductive Octave
  | High
  | Medium
  | Low
  deriving DecidableEq, Repr

/-- Modelled from the spec: accidental applied to a scale degree. -/
inductive Accidental
  | Natural
  | Sharp
  | Flat
  deriving DecidableEq, Repr

/-- Modelled from the spec: a TimedNote of section 3, with start time and
positive duration in milliseconds and the MIDI pitch. -/
structure TimedNote where
  startMs : ℚ
  durationMs : ℚ
  midiPitch : ℕ
  deriving DecidableEq, Repr

/-- Modelled from the spec: an InstrumentNote of section 3. -/
structure InstrumentNote where
  octave : Octave
  degree : ℕ
  accidental : Accidental
  startMs : ℚ
  durationMs : ℚ
  deriving DecidableEq, Repr

/-- Modelled from the spec: the per-note mapper error. -/
inductive MapError
  | OutOfRange
  deriving DecidableEq, Repr

/-- The natural-major-scale semitone table of spec section 4.3. -/
def scaleSemis : List ℕ := [0, 2, 4, 5, 7, 9, 11]

/-- Modelled from the spec: the configured reference pitch, default MIDI 60
(README configuration reference_midi_note). -/
def referencePitch : ℕ := 60

/-- Modelled from the spec: resolve a within-octave semitone offset to a
scale degree with accidental — a table hit is Natural, otherwise the nearest
lower scale degree marked Sharp (the recommended prefer-Sharp policy). -/
def degreeAcc (s : ℕ) : ℕ × Accidental :=
  match scaleSemis.findIdx? (· == s) with
  | some i => (i + 1, Accidental.Natural)
  | none =>
    match scaleSemis.findIdx? (· == s - 1) with
    | some i => (i + 1, Accidental.Sharp)
    | none => (1, Accidental.Natural)

/-- Modelled from the spec: map(timedNote, transposeSemitones), spec 4.3
(mapper.rs is not in the repository snapshot).  The transposed pitch is
placed relative to the reference pitch; offsets below the Low band or above
the High band are rejected as OutOfRange, never clamped.  The Low band holds
offsets -12 to -1, Medium 0 to 11, High 12 to 23 (README key table). -/
def mapNote (transpose : ℤ) (n : TimedNote) : Except MapError InstrumentNote :=
  let offset : ℤ := (n.midiPitch : ℤ) + transpose - referencePitch
  if offset < -12 ∨ 24 ≤ offset then Except.error MapError.OutOfRange
  else
    let octave :=
      if offset < 0 then Octave.Low
      else if offset < 12 then Octave.Medium
      else Octave.High
    let s : ℕ := (offset % 12).toNat
    let da := degreeAcc s
    Except.ok
      { octave := octave, degree := da.1, accidental := da.2,
        startMs := n.startMs, durationMs := n.durationMs }

/-- Modelled from the spec: per-note failures are aggregated into a counter
while the load continues (spec section 7 propagation policy). -/
def mapAll (transpose : ℤ) : List TimedNote → List InstrumentNote × ℕ
  | [] => ([], 0)
  | n :: ns =>
    let rest := mapAll transpose ns
    match mapNote transpose n with
    | Except.ok i => (i :: rest.1, rest.2)
    | Except.error _ => (rest.1, rest.2 + 1)

/-- The MIDI pitch a mapped InstrumentNote stands for: reference plus octave
band base plus scale-degree semitone plus accidental shift. -/
def instrumentPitch (i : InstrumentNote) : ℤ :=
  let base : ℤ :=
    match i.octave with
    | Octave.Low => -12
    | Octave.Medium => 0
    | Octave.High => 12
  let accShift : ℤ :=
    match i.accidental with
    | Accidental.Natural => 0
    | Accidental.Sharp => 1
    | Accidental.Flat => -1
  (referencePitch : ℤ) + base + (scaleSemis.getD (i.degree - 1) 0 : ℤ) + accShift

lemma degreeAcc_correct :
    ∀ s, s < 12 →
      1 ≤ (degreeAcc s).1 ∧ (degreeAcc s).1 ≤ 7 ∧
      ((scaleSemis.getD ((degreeAcc s).1 - 1) 0 : ℤ) +
        (match (degreeAcc s).2 with
          | Accidental.Natural => (0:ℤ)
          | Accidental.Sharp => 1
          | Accidental.Flat => -1) = (s : ℤ)) := by
  decide

end WWMP

namespace WWMP

/-- C4: a TimedNote whose transposed pitch falls outside the instrument's
36-pitch chromatic range maps to OutOfRange; the note is dropped from the
output of the load while the failure only bumps the aggregate counter, and
every successfully mapped note denotes exactly its transposed pitch, so no
note is ever clamped into range. -/
theorem mapNote_outOfRange (n : TimedNote) (t : ℤ)
    (h : (n.midiPitch : ℤ) + t - referencePitch < -12 ∨
      24 ≤ (n.midiPitch : ℤ) + t - referencePitch) :
    mapNote t n = Except.error MapError.OutOfRange ∧
    (∀ l₁ l₂ : List TimedNote,
        mapAll t (l₁ ++ n :: l₂) =
          ((mapAll t (l₁ ++ l₂)).1, (mapAll t (l₁ ++ l₂)).2 + 1)) ∧
    (∀ (m : TimedNote) (i : InstrumentNote),
        mapNote t m = Except.ok i →
          instrumentPitch i = (m.midiPitch : ℤ) + t) := by
  have herr : mapNote t n = Except.error MapError.OutOfRange := by
    simp only [mapNote, if_pos h]
  refine ⟨herr, ?_, ?_⟩
  · intro l₁ l₂
    induction l₁ with
    | nil => simp [mapAll, herr]
    | cons m l₁ ih =>
      simp only [List.cons_append, mapAll]
      cases hm : mapNote t m <;> simp [hm, ih]
  · intro m i hmi
    simp only [mapNote] at hmi
    split at hmi
    · exact absurd hmi (by simp)
    · next hrange =>
      push_neg at hrange
      obtain ⟨hlo, hhi⟩ := hrange
      set offset : ℤ := (m.midiPitch : ℤ) + t - referencePitch with hoff
      have hs12 : (offset % 12).toNat < 12 := by omega
      have hd := degreeAcc_correct (offset % 12).toNat hs12
      cases hmi
      simp only [instrumentPitch]
      by_cases h0 : offset < 0
      · rw [if_pos h0]
        have hbase : ((offset % 12).toNat : ℤ) = offset + 12 := by omega
        simp only [referencePitch] at *
        omega
      · rw [if_neg h0]
        by_cases h12 : offset < 12
        · rw [if_pos h12]
          simp only [referencePitch] at *
          omega
        · rw [if_neg h12]
          simp only [referencePitch] at *
          omega

/-- Witness for C4: MIDI pitch 100 at transpose 0 lies 40 semitones above
the reference, outside the 36-pitch range, and is rejected. -/
theorem mapNote_outOfRange_witness :
    (((TimedNote.mk 0 1 100).midiPitch : ℤ) + 0 - referencePitch < -12 ∨
      24 ≤ ((TimedNote.mk 0 1 100).midiPitch : ℤ) + 0 - referencePitch) ∧
    mapNote 0 (TimedNote.mk 0 1 100) = Except.error MapError.OutOfRange :=
  ⟨by decide, (mapNote_outOfRange (TimedNote.mk 0 1 100) 0 (by decide)).1⟩

end WWMP

namespace WWMP

/-! ## Timeline Builder (spec sections 3 and 4.5) -/

/-- Modelled from the spec: key action of a KeyEvent. -/
inductive Action
  | Down
  | Up
  deriving DecidableEq, Repr

/-- Modelled from the spec: modifier of a KeyEvent. -/
inductive Modifier
  | None
  | Shift
  | Ctrl
  deriving DecidableEq, Repr

/-- Modelled from the spec: a KeyEvent of section 3, the atomic unit the
scheduler consumes; isModifier marks the modifier-down/up events of a
four-event group, which the tie-break ordering must distinguish. -/
structure KeyEvent where
  timestampMs : ℚ
  key : String
  modifier : Modifier
  action : Action
  isModifier : Bool
  deriving DecidableEq, Repr

/-- Modelled from the spec: the tie-break priority of section 3,
modifier-Down before key-Down before key-Up before modifier-Up. -/
def priority (e : KeyEvent) : ℕ :=
  match e.isModifier, e.action with
  | true, Action.Down => 0
  | false, Action.Down => 1
  | false, Action.Up => 2
  | true, Action.Up => 3

/-- The README key layout: seven letters per octave band. -/
def keyTable : Octave → List String
  | Octave.High => ["Q", "W", "E", "R", "T", "Y", "U"]
  | Octave.Medium => ["A", "S", "D", "F", "G", "H", "J"]
  | Octave.Low => ["Z", "X", "C", "V", "B", "N", "M"]

/-- The physical letter of an InstrumentNote, degree 1 to 7 in its band. -/
def keyFor (i : InstrumentNote) : String :=
  (keyTable i.octave).getD (i.degree - 1) "A"

/-- Modelled from the spec: Sharp notes hold Shift, Flat notes hold Ctrl. -/
def modifierFor : Accidental → Modifier
  | Accidental.Natural => Modifier.None
  | Accidental.Sharp => Modifier.Shift
  | Accidental.Flat => Modifier.Ctrl

/-- Modelled from the spec: the Down/Up KeyEvent group of one
InstrumentNote (section 3), tagged with the note's onset index: two events
for a natural note, four for a note requiring a modifier, the modifier pair
bracketing the key pair. -/
def eventsFor (idx : ℕ) (i : InstrumentNote) : List (KeyEvent × ℕ) :=
  let md := modifierFor i.accidental
  let k := keyFor i
  let tOn := i.startMs
  let tOff := i.startMs + i.durationMs
  match md with
  | Modifier.None =>
    [(KeyEvent.mk tOn k Modifier.None Action.Down false, idx),
     (KeyEvent.mk tOff k Modifier.None Action.Up false, idx)]
  | m =>
    [(KeyEvent.mk tOn k m Action.Down true, idx),
     (KeyEvent.mk tOn k m Action.Down false, idx),
     (KeyEvent.mk tOff k m Action.Up false, idx),
     (KeyEvent.mk tOff k m Action.Up true, idx)]

/-- The sort key of a tagged KeyEvent: timestamp, then tie-break priority,
then original note onset order, compared lexicographically. -/
def evKey (e : KeyEvent × ℕ) : Lex (ℚ × Lex (ℕ × ℕ)) :=
  toLex (e.1.timestampMs, toLex (priority e.1, e.2))

/-- The Timeline order relation on tagged KeyEvents. -/
def evLE (a b : KeyEvent × ℕ) : Prop := evKey a ≤ evKey b

instance : DecidableRel evLE := fun a b =>
  inferInstanceAs (Decidable (evKey a ≤ evKey b))

instance : IsTotal (KeyEvent × ℕ) evLE := ⟨fun a b => le_total (evKey a) (evKey b)⟩

instance : IsTrans (KeyEvent × ℕ) evLE := ⟨fun _ _ _ => le_trans⟩

/-- Modelled from the spec: build(filteredNotes) -> Timeline, section 4.5
(playback.rs is not in the repository snapshot): each InstrumentNote's event
group is inserted into the globally ordered sequence, sorted by timestamp
with ties broken by priority and then by note onset order. -/
def buildTagged (notes : List InstrumentNote) : List (KeyEvent × ℕ) :=
  List.insertionSort evLE (notes.enum.flatMap fun p => eventsFor p.1 p.2)

/-- The Timeline: the ordered KeyEvents with the onset tags erased. -/
def build (notes : List InstrumentNote) : List KeyEvent :=
  (buildTagged notes).map Prod.fst

/-- C2: in every Timeline produced by the builder, every pair of events in
order has non-decreasing timestampMs, and events at equal timestamps are
ordered by the priority modifier-Down, key-Down, key-Up, modifier-Up and
then by original note onset order. -/
theorem build_ordered (notes : List InstrumentNote) :
    (buildTagged notes).Pairwise (fun a b =>
      a.1.timestampMs ≤ b.1.timestampMs ∧
      (a.1.timestampMs = b.1.timestampMs →
        priority a.1 < priority b.1 ∨
          (priority a.1 = priority b.1 ∧ a.2 ≤ b.2))) := by
  have hs : List.Sorted evLE (buildTagged notes) :=
    List.sorted_insertionSort evLE _
  refine hs.imp ?_
  intro a b hab
  have h1 := (Prod.Lex.le_iff _ _).mp hab
  rcases h1 with hlt | ⟨heq, hinner⟩
  · exact ⟨le_of_lt hlt, fun hcontra => absurd hcontra (ne_of_lt hlt)⟩
  · refine ⟨le_of_eq heq, fun _ => ?_⟩
    have h2 := (Prod.Lex.le_iff _ _).mp hinner
    rcases h2 with hlt2 | ⟨heq2, hle2⟩
    · exact Or.inl hlt2
    · exact Or.inr ⟨heq2, hle2⟩

end WWMP

namespace WWMP

/-! ## Playback Scheduler state machine (spec section 4.6) -/

/-- Modelled from the spec: playback status. -/
inductive Status
  | Stopped
  | Playing
  | Paused
  deriving DecidableEq, Repr

/-- Modelled from the spec: command errors of the scheduler, spec section 7
taxonomy (NoTimeline rejects play from Stopped with no loaded Timeline). -/
inductive CmdError
  | NotPlaying
  | AlreadyPlaying
  | InvalidParameter
  | NoTimeline
  deriving DecidableEq, Repr

/-- Modelled from the spec: the PlaybackState of section 3, owned by the
scheduler; held records the currently pressed synthetic keys and modifiers
in order of acquisition, most recent last (the release obligations of the
scoped-acquisition pattern, spec section 9). -/
structure PlaybackState where
  status : Status
  timeline : Option (List KeyEvent)
  cursor : ℕ
  tempoFactor : ℚ
  transposeSemitones : ℤ
  elapsedAtPauseMs : ℚ
  held : List String
  deriving DecidableEq, Repr

/-- Modelled from the spec: an observable action of the scheduler, either a
key injection through the keyboard-input interface or a report of the new
status to the caller. -/
inductive SchedAction
  | inject (e : KeyEvent)
  | report (st : Status)
  deriving DecidableEq, Repr

/-- Modelled from the spec: play (section 4.6, playback.rs is not in the
repository snapshot); a no-op while Playing, resumes from Paused, and from
Stopped requires a loaded Timeline. -/
def play (s : PlaybackState) : Except CmdError PlaybackState :=
  match s.status with
  | Status.Playing => Except.ok s
  | Status.Paused => Except.ok { s with status := Status.Playing }
  | Status.Stopped =>
    match s.timeline with
    | none => Except.error CmdError.NoTimeline
    | some _ => Except.ok { s with status := Status.Playing, cursor := 0 }

/-- Modelled from the spec: pause is only legal while Playing and fails
with NotPlaying otherwise (section 4.6). -/
def pause (s : PlaybackState) : Except CmdError PlaybackState :=
  match s.status with
  | Status.Playing => Except.ok { s with status := Status.Paused }
  | _ => Except.error CmdError.NotPlaying

/-- Modelled from the spec: setTempoFactor rejects factors at or below zero
with InvalidParameter and otherwise rescales the scheduler's time base
without touching the Timeline (sections 4.5 note and 6). -/
def setTempoFactor (s : PlaybackState) (f : ℚ) : Except CmdError PlaybackState :=
  if f ≤ 0 then Except.error CmdError.InvalidParameter
  else Except.ok { s with tempoFactor := f }

/-- Modelled from the spec: a failed command leaves the state unchanged;
runCmd pairs the resulting state with the reported error, if any. -/
def runCmd (s : PlaybackState) (r : Except CmdError PlaybackState) :
    PlaybackState × Option CmdError :=
  match r with
  | Except.ok s' => (s', none)
  | Except.error e => (s, some e)

/-- Modelled from the spec: the dispatch clock of section 4.6, playback
milliseconds as elapsed wall-clock time scaled by the live tempo factor. -/
def playbackMs (s : PlaybackState) (now origin : ℚ) : ℚ :=
  (now - origin) * s.tempoFactor

/-- Modelled from the spec: the panic reset of sections 4.6 and 9 — one
compensating Up event for every currently held key or modifier, in reverse
order of acquisition, injected immediately (timestamp 0). -/
def panicReset (held : List String) : List KeyEvent :=
  held.reverse.map fun k => KeyEvent.mk 0 k Modifier.None Action.Up false

/-- Modelled from the spec: stop issues the panic-reset Up events and only
then reports the Stopped status, clearing the held list and the cursor. -/
def stop (s : PlaybackState) : List SchedAction × PlaybackState :=
  ((panicReset s.held).map SchedAction.inject ++ [SchedAction.report Status.Stopped],
   { s with status := Status.Stopped, held := [], cursor := 0 })

/-- C1: after any stop() call the set of currently held synthetic keys and
modifiers is empty, whatever was held before; the emitted action sequence
is exactly one compensating Up per held key, in reverse order of
acquisition, all preceding the report of the Stopped status. -/
theorem stop_panic_reset (s : PlaybackState) :
    (stop s).2.held.length = 0 ∧
    (stop s).2.status = Status.Stopped ∧
    (stop s).1 =
      (s.held.reverse.map fun k =>
        SchedAction.inject (KeyEvent.mk 0 k Modifier.None Action.Up false)) ++
      [SchedAction.report Status.Stopped] := by
  refine ⟨rfl, rfl, ?_⟩
  simp [stop, panicReset]

/-- C6: setTempoFactor with a factor at or below zero fails with
InvalidParameter and leaves the playback state unchanged; with a positive
factor it succeeds and only replaces the tempo factor, so the Timeline is
not rebuilt and future dispatch times rescale live. -/
theorem setTempoFactor_spec (s : PlaybackState) (f : ℚ) :
    (f ≤ 0 →
      setTempoFactor s f = Except.error CmdError.InvalidParameter ∧
      (runCmd s (setTempoFactor s f)).1 = s) ∧
    (0 < f →
      setTempoFactor s f = Except.ok { s with tempoFactor := f } ∧
      (∀ now origin : ℚ,
        playbackMs { s with tempoFactor := f } now origin =
          (now - origin) * f)) := by
  constructor
  · intro hf
    simp [setTempoFactor, hf, runCmd]
  · intro hf
    have : ¬ f ≤ 0 := not_le.mpr hf
    simp [setTempoFactor, this, playbackMs]

/-- C7: pause while Stopped fails with NotPlaying and leaves the state
unchanged; play while already Playing is a no-op returning the state
untouched. -/
theorem pause_stopped_play_playing (s : PlaybackState) :
    (s.status = Status.Stopped →
      pause s = Except.error CmdError.NotPlaying ∧
      (runCmd s (pause s)).1 = s) ∧
    (s.status = Status.Playing → play s = Except.ok s) := by
  constructor
  · intro h
    simp [pause, h, runCmd]
  · intro h
    simp [play, h]

end WWMP

namespace WWMP

/-- A concrete idle playback state used by witnesses. -/
def idleState : PlaybackState :=
  PlaybackState.mk Status.Stopped none 0 1 0 0 []

/-- A concrete playing playback state used by witnesses. -/
def playingState : PlaybackState :=
  PlaybackState.mk Status.Playing (some []) 0 1 0 0 ["A"]

/-- Witness for C6 at factor 0 (rejected) and factor 2 (accepted). -/
theorem setTempoFactor_spec_witness :
    ((0:ℚ) ≤ 0 ∧
      setTempoFactor idleState 0 = Except.error CmdError.InvalidParameter ∧
      (runCmd idleState (setTempoFactor idleState 0)).1 = idleState) ∧
    ((0:ℚ) < 2 ∧
      setTempoFactor idleState 2 =
        Except.ok { idleState with tempoFactor := 2 } ∧
      (∀ now origin : ℚ,
        playbackMs { idleState with tempoFactor := 2 } now origin =
          (now - origin) * 2)) :=
  ⟨⟨by decide, (setTempoFactor_spec idleState 0).1 (by decide)⟩,
   ⟨by decide, (setTempoFactor_spec idleState 2).2 (by decide)⟩⟩

/-- Witness for C7 on a concrete stopped state and a concrete playing
state. -/
theorem pause_stopped_play_playing_witness :
    (idleState.status = Status.Stopped ∧
      pause idleState = Except.error CmdError.NotPlaying ∧
      (runCmd idleState (pause idleState)).1 = idleState) ∧
    (playingState.status = Status.Playing ∧
      play playingState = Except.ok playingState) :=
  ⟨⟨rfl, (pause_stopped_play_playing idleState).1 rfl⟩,
   ⟨rfl, (pause_stopped_play_playing playingState).2 rfl⟩⟩

end WWMP

namespace WWMP

/-! ## Frontend playback-button state, embedded from src/main.js -/

/-- The frontend state relevant to the playback buttons: the midiLoaded
flag (src/main.js line 5) and the disabled attribute of the three playback
buttons. -/
structure UiState where
  midiLoaded : Bool
  playDisabled : Bool
  pauseDisabled : Bool
  stopDisabled : Bool
  deriving DecidableEq, Repr

/-- Embedded from src/main.js lines 130-134: the play button is enabled
exactly when a MIDI file is loaded; pause and stop are disabled. -/
def updatePlaybackButtons (u : UiState) : UiState :=
  { u with playDisabled := !u.midiLoaded,
           pauseDisabled := true, stopDisabled := true }

/-- Embedded from src/main.js line 5: midiLoaded starts out false. -/
def initialMidiLoaded : Bool := false

/-- Embedded from src/main.js lines 156-159: on DOMContentLoaded the
playback buttons are refreshed. -/
def domContentLoaded (u : UiState) : UiState :=
  updatePlaybackButtons u

/-- Embedded from src/main.js lines 46-48: a successful load sets
midiLoaded and refreshes the playback buttons. -/
def fileLoaded (u : UiState) : UiState :=
  updatePlaybackButtons { u with midiLoaded := true }

/-- C8: play succeeding from Stopped requires a loaded Timeline — with no
Timeline it fails, and any success implies a Timeline is present — and in
the UI the play button is disabled after startup while no file has been
loaded, becoming enabled only after a successful load. -/
theorem play_requires_timeline (s : PlaybackState) (u : UiState) :
    (s.status = Status.Stopped → s.timeline = none →
      play s = Except.error CmdError.NoTimeline) ∧
    (∀ s', s.status = Status.Stopped → play s = Except.ok s' →
      s.timeline.isSome) ∧
    (u.midiLoaded = initialMidiLoaded →
      (domContentLoaded u).playDisabled = true) ∧
    (fileLoaded u).playDisabled = false := by
  refine ⟨?_, ?_, ?_, ?_⟩
  · intro hst htl
    simp [play, hst, htl]
  · intro s' hst hok
    cases htl : s.timeline with
    | none => simp [play, hst, htl] at hok
    | some tl => rfl
  · intro hml
    simp [domContentLoaded, updatePlaybackButtons, hml, initialMidiLoaded]
  · simp [fileLoaded, updatePlaybackButtons]

/-- Witness for C8 on the concrete unloaded state and the startup UI
state. -/
theorem play_requires_timeline_witness :
    (idleState.status = Status.Stopped ∧ idleState.timeline = none ∧
      play idleState = Except.error CmdError.NoTimeline) ∧
    ((UiState.mk false true true true).midiLoaded = initialMidiLoaded ∧
      (domContentLoaded (UiState.mk false true true true)).playDisabled = true) :=
  ⟨⟨rfl, rfl,
      (play_requires_timeline idleState (UiState.mk false true true true)).1 rfl rfl⟩,
   ⟨rfl,
      (play_requires_timeline idleState (UiState.mk false true true true)).2.2.1 rfl⟩⟩

/-! ## File loading interface (spec section 6) -/

/-- Modelled from the spec: the load errors of the loadFile contract. -/
inductive LoadError
  | ParseError
  | IoError
  deriving DecidableEq, Repr

/-- Modelled from the spec: the FileInfo summary returned by loadFile,
with exactly the five fields of the section 6 contract; src/main.js lines
41-44 consume precisely these five fields. -/
structure FileInfo where
  durationMs : ℚ
  noteCount : ℕ
  minPitch : ℕ
  maxPitch : ℕ
  trackCount : ℕ
  deriving DecidableEq, Repr

/-- Modelled from the spec: the outcome of reading and parsing the file at
a path — unreadable (I/O failure), malformed (parse failure), or the
flattened note stream with its track count. -/
inductive MidiSource
  | unreadable
  | malformed
  | parsed (trackCount : ℕ) (notes : List TimedNote)
  deriving DecidableEq, Repr

/-- Modelled from the spec: the summary statistics of the flattened note
stream, computed in one place (spec section 4.2 side output). -/
def fileInfoOf (trackCount : ℕ) (notes : List TimedNote) : FileInfo :=
  { durationMs := (notes.map fun n => n.startMs + n.durationMs).foldr max 0,
    noteCount := notes.length,
    minPitch := (notes.map TimedNote.midiPitch).foldr min 127,
    maxPitch := (notes.map TimedNote.midiPitch).foldr max 0,
    trackCount := trackCount }

/-- Modelled from the spec: loadFile(path) -> FileInfo or ParseError or
IoError, spec section 6; a stage-level failure aborts the whole load with
no partial result (section 7). -/
def loadFile : MidiSource → Except LoadError FileInfo
  | MidiSource.unreadable => Except.error LoadError.IoError
  | MidiSource.malformed => Except.error LoadError.ParseError
  | MidiSource.parsed tc notes => Except.ok (fileInfoOf tc notes)

/-- C5: every successful loadFile call returns the FileInfo, whose five
fields are the summary statistics of the loaded file, and every failure is
ParseError or IoError carrying no partial result. -/
theorem loadFile_spec (src : MidiSource) :
    (∀ fi, loadFile src = Except.ok fi →
      ∃ tc notes, src = MidiSource.parsed tc notes ∧ fi = fileInfoOf tc notes) ∧
    (∀ e, loadFile src = Except.error e →
      e = LoadError.ParseError ∨ e = LoadError.IoError) := by
  cases src with
  | unreadable => simp [loadFile]
  | malformed => simp [loadFile]
  | parsed tc notes =>
    refine ⟨fun fi hfi => ⟨tc, notes, rfl, ?_⟩, fun e he => ?_⟩
    · have : Except.ok (ε := LoadError) (fileInfoOf tc notes) = Except.ok fi := hfi
      simpa using this.symm
    · simp [loadFile] at he

/-- Witness for C5 on a concrete parsed file and a concrete unreadable
file. -/
theorem loadFile_spec_witness :
    (∃ tc notes, MidiSource.parsed 1 ([] : List TimedNote) =
        MidiSource.parsed tc notes ∧ fileInfoOf 1 [] = fileInfoOf tc notes) ∧
    (LoadError.IoError = LoadError.ParseError ∨
      LoadError.IoError = LoadError.IoError) :=
  ⟨(loadFile_spec (MidiSource.parsed 1 [])).1 (fileInfoOf 1 []) rfl,
   (loadFile_spec MidiSource.unreadable).2 LoadError.IoError rfl⟩

end WWMP
